import Mathlib

/-
Verification of the omegaup/public-courses synchronization scripts.

Shallow embedding of the parts of the repository relevant to the claims:
- the metadata reconciler of src/utils/upload.py (admins, admin groups, tags),
- the change-set selection of src/utils/problems.py,
- the course-sync workflow of src/utils/update_assignment_problems.py
  (process_add, add_problem_to_json),
- the problem loader of src/utils/problems.py (Problem.load).

Python strings are embedded as Lean String except in the change-set
selection, where the substring reasoning is done on List Char.  Python
sets built by comprehensions such as {x.lower() for x in l} are embedded
as deduplicated lists ((l.map pyLower).dedup): membership and the
add/remove call multiset agree with the Python set; the iteration order of
a Python set is unspecified, the embedding fixes first-occurrence order.
-/

/-! ### Remote API calls issued by the metadata reconciler (src/utils/upload.py) -/

/-- One remote mutation call issued by uploadProblemZip's reconciliation
section (upload.py lines 216-286). -/
inductive ApiCall where
  | addAdmin (user : String)
  | removeAdmin (user : String)
  | addGroupAdmin (group : String)
  | removeGroupAdmin (group : String)
  | addTag (name : String) (public : Bool)
  | removeTag (name : String)
deriving DecidableEq

/-- Python str.lower, character by character (ASCII case folding, which
is what the inputs here exercise).  Stated on the character list of the
string so that proofs and concrete evaluation go through the kernel. -/
def pyLower (s : String) : String :=
  ⟨s.data.map Char.toLower⟩

/-- Python str.startswith, on the character lists of the strings. -/
def pyStartsWith (s pre : String) : Bool :=
  pre.data.isPrefixOf s.data

/-- Python set comprehension {x.lower() for x in l}: lowercase, then
deduplicate (first occurrence kept). -/
def lowerSet (l : List String) : List String :=
  (l.map pyLower).dedup

/-- Python set difference a - b on deduplicated lists. -/
def setDiff (a b : List String) : List String :=
  a.filter (fun x => decide (x ∉ b))

/-- Element of allAdmins['admins'] as returned by client.problem.admins:
a username with a role. -/
structure AdminEntry where
  username : String
  role : String
deriving DecidableEq

/-- Element of allAdmins['group_admins']: a group alias with a role. -/
structure GroupAdminEntry where
  alias_ : String
  role : String
deriving DecidableEq

/-- Element of client.problem.tags(...)['tags']: a tag name. -/
structure TagEntry where
  name : String
deriving DecidableEq

/-- Embeds upload.py lines 231-233: clientAdmin is empty when
client.username is None or empty (falsy), else the singleton of the
lowercased username. -/
def clientAdminSet : Option String → List String
  | none => []
  | some u => if u = "" then [] else [pyLower u]

/-- Embeds upload.py lines 223-244 (admin reconciliation).
admins = {a['username'].lower() for a in allAdmins['admins'] if a['role'] == 'admin'};
desiredAdmins = {admin.lower() for admin in targetAdmins};
adminsToRemove = admins - desiredAdmins - clientAdmin;
adminsToAdd = desiredAdmins - admins - clientAdmin;
then one addAdmin call per element of adminsToAdd, followed by one
removeAdmin call per element of adminsToRemove. -/
def reconcileAdmins (targetAdmins : List String) (allAdmins : List AdminEntry)
    (username : Option String) : List ApiCall :=
  let admins :=
    ((allAdmins.filter (fun a => a.role == "admin")).map
      (fun a => pyLower a.username)).dedup
  let desiredAdmins := lowerSet targetAdmins
  let clientAdmin := clientAdminSet username
  let adminsToRemove := setDiff (setDiff admins desiredAdmins) clientAdmin
  let adminsToAdd := setDiff (setDiff desiredAdmins admins) clientAdmin
  adminsToAdd.map ApiCall.addAdmin ++ adminsToRemove.map ApiCall.removeAdmin

/-- Embeds upload.py lines 246-263 (admin-group reconciliation).
adminGroups = {a['alias'].lower() for a in allAdmins['group_admins'] if a['role'] == 'admin'};
groupsToRemove = adminGroups - desiredGroups; groupsToAdd = desiredGroups - adminGroups;
addGroupAdmin calls first, then removeGroupAdmin calls. -/
def reconcileGroups (targetAdminGroups : List String)
    (groupAdmins : List GroupAdminEntry) : List ApiCall :=
  let adminGroups :=
    ((groupAdmins.filter (fun a => a.role == "admin")).map
      (fun a => pyLower a.alias_)).dedup
  let desiredGroups := lowerSet targetAdminGroups
  let groupsToRemove := setDiff adminGroups desiredGroups
  let groupsToAdd := setDiff desiredGroups adminGroups
  groupsToAdd.map ApiCall.addGroupAdmin ++
    groupsToRemove.map ApiCall.removeGroupAdmin

/-- Embeds upload.py lines 265-286 (tag reconciliation).
tags = {t['name'].lower() for t in client.problem.tags(...)['tags']};
desiredTags = {t.lower() for t in misc['tags']};
tagsToRemove = tags - desiredTags; tagsToAdd = desiredTags - tags.
The removal loop runs first and skips a tag when
tag.startswith('problemRestrictedTag'); then the addition loop issues an
addTag call with public=payload.get('public', False), and payload never
contains the key 'public', so the flag is always False. -/
def reconcileTags (desiredTagNames : List String)
    (observedTags : List TagEntry) : List ApiCall :=
  let tags := (observedTags.map (fun t => pyLower t.name)).dedup
  let desiredTags := lowerSet desiredTagNames
  let tagsToRemove := setDiff tags desiredTags
  let tagsToAdd := setDiff desiredTags tags
  tagsToRemove.filterMap
    (fun tag =>
      if pyStartsWith tag "problemRestrictedTag" then none
      else some (ApiCall.removeTag tag)) ++
    tagsToAdd.map (fun tag => ApiCall.addTag tag false)

/-- True of the calls that add something. -/
def isAddCall : ApiCall → Bool
  | .addAdmin _ => true
  | .addGroupAdmin _ => true
  | .addTag _ _ => true
  | _ => false

/-- True of the calls that remove something. -/
def isRemoveCall : ApiCall → Bool
  | .removeAdmin _ => true
  | .removeGroupAdmin _ => true
  | .removeTag _ => true
  | _ => false

/-- Call list consisting of all its add calls followed by all its remove
calls (the add-before-remove phase ordering the spec describes). -/
def addsBeforeRemoves (l : List ApiCall) : Prop :=
  l.filter isAddCall ++ l.filter isRemoveCall = l

/-- Call list consisting of all its remove calls followed by all its add
calls. -/
def removesBeforeAdds (l : List ApiCall) : Prop :=
  l.filter isRemoveCall ++ l.filter isAddCall = l

/-- Embeds the Python for-loops that issue the reconciliation calls: the
loop body performs one remote call per item with no try/except around it,
so the first call that raises terminates the loop (and the surrounding
function).  Returns the calls actually attempted and whether the loop
completed. -/
def runCalls (fails : ApiCall → Bool) : List ApiCall → List ApiCall × Bool
  | [] => ([], true)
  | c :: rest =>
    if fails c then ([c], false)
    else
      let r := runCalls fails rest
      (c :: r.1, r.2)

/-! ### Change-set selection (src/utils/problems.py, problems) -/

/-- One entry of problems.json as consumed by problems(): a repository
path plus the optional disabled flag (problem.get('disabled', False)).
Paths are embedded as List Char so that Python's substring operator
`in` is List.IsInfix. -/
structure ConfigEntry where
  path : List Char
  disabled : Bool
deriving DecidableEq

/-- Embeds problems.py lines 156-194: build configProblems by skipping
disabled entries; in all mode return them; otherwise keep an entry when
`problem.path not in changes` is false, i.e. when its path occurs as a
substring of the raw `git diff --name-only` output string. -/
def problems (allProblems : Bool) (entries : List ConfigEntry)
    (changes : List Char) : List ConfigEntry :=
  let configProblems := entries.filter (fun e => !e.disabled)
  if allProblems then configProblems
  else configProblems.filter (fun e => decide (e.path <:+: changes))

/-- Follows the spec's words (section 3, ChangeSet; section 8): in changed
mode the selection is the non-disabled entries whose path is a prefix of
at least one file path reported by the diff.  Stated over the reported
file list; for comparison with `problems`. -/
def specChangeSet (entries : List ConfigEntry)
    (diffFiles : List (List Char)) : List ConfigEntry :=
  (entries.filter (fun e => !e.disabled)).filter
    (fun e => diffFiles.any (fun f => decide (e.path <+: f)))

/-- Raw output of `git diff --name-only`: each reported file path followed
by a newline character. -/
def joinLines (files : List (List Char)) : List Char :=
  files.foldr (fun f acc => f ++ '\n' :: acc) []

/-! ### Course sync workflow (src/utils/update_assignment_problems.py) -/

/-- One record of the problems.json handled by the update script. -/
structure ProblemEntry where
  path : String
deriving DecidableEq

/-- Embeds the f-string "Courses/{course}/{assignment}/{problem}" built in
add_problem_to_json and remove_problem_from_json. -/
def jsonProblemPath (course assignment problem : String) : String :=
  "Courses/" ++ course ++ "/" ++ assignment ++ "/" ++ problem

/-- Embeds add_problem_to_json (update_assignment_problems.py lines
255-260): append an entry for the path unless one with the same path is
already present. -/
def add_problem_to_json (course assignment problem : String)
    (problems_data : List ProblemEntry) : List ProblemEntry :=
  let path := jsonProblemPath course assignment problem
  if problems_data.any (fun p => p.path == path) then problems_data
  else problems_data ++ [⟨path⟩]

/-- One element of the add_problem array of the pending-request file. -/
structure AddItem where
  course_alias : String
  assignment_alias : String
  problem_alias : String
deriving DecidableEq

/-- Outcome of one iteration of the process_add try-block, per item:
either some remote call (listAssignments, addProblem, makedirs) raised,
or control reached download_and_unzip, which returned the given boolean
(it returns False on HTTP 404, on any non-200 status, on a bad zip file
and on any other exception it catches internally). -/
inductive AddOutcome where
  | raises
  | runs (downloadOk : Bool)
deriving DecidableEq

/-- Allowed course aliases (update_assignment_problems.py lines 23-26). -/
def COURSE_ALIASES : List String := ["curso-publico", "omi-public-course"]

/-- Embeds one iteration of the process_add loop (lines 146-191) at the
level of its effect on problems_data: a non-allow-listed course is
skipped; an exception inside the try-block is caught by the per-item
except clause and leaves problems_data unchanged; when download_and_unzip
returns True, add_problem_to_json runs, otherwise the update is skipped
with a warning. -/
def processAddItem (env : AddItem → AddOutcome)
    (problems_data : List ProblemEntry) (item : AddItem) : List ProblemEntry :=
  if item.course_alias ∉ COURSE_ALIASES then problems_data
  else
    match env item with
    | .raises => problems_data
    | .runs downloadOk =>
      if downloadOk then
        add_problem_to_json item.course_alias item.assignment_alias
          item.problem_alias problems_data
      else problems_data

/-- Embeds the process_add loop over all pending add items. -/
def process_add (env : AddItem → AddOutcome) (items : List AddItem)
    (problems_data : List ProblemEntry) : List ProblemEntry :=
  items.foldl (processAddItem env) problems_data

/-! ### Problem loader (src/utils/problems.py, Problem.load) -/

/-- Structured data produced by json.load. -/
inductive JsonValue where
  | str (s : String)
  | num (n : Int)
  | bool (b : Bool)
  | null
  | arr (elems : List JsonValue)
  | obj (fields : List (String × JsonValue))

/-- A loaded problem: path, title and full configuration. -/
structure Problem where
  path : String
  title : JsonValue
  config : List (String × JsonValue)

/-- The Python exception classes Problem.load can raise, by class:
FileNotFoundError (re-raised), ValueError (raised for JSONDecodeError),
and KeyError (uncaught, from problemConfig['title']). -/
inductive LoadError where
  | notFound
  | invalidFormat
  | keyError (key : String)
deriving DecidableEq

/-- The three relevant states of the settings.json file, as observed
through open + json.load: missing, present but not valid JSON, or parsed
into an object with the given fields. -/
inductive SettingsFile where
  | absent
  | unparsable
  | parsed (config : List (String × JsonValue))

/-- Embeds Problem.load (problems.py lines 23-41): a missing file raises
FileNotFoundError, undecodable JSON raises ValueError, and otherwise the
Problem is built from problemConfig['title'] (KeyError when absent) and
the parsed configuration. -/
def Problem.load (problemPath : String) (settings : SettingsFile) :
    Except LoadError Problem :=
  match settings with
  | .absent => .error .notFound
  | .unparsable => .error .invalidFormat
  | .parsed cfg =>
    match cfg.lookup "title" with
    | none => .error (.keyError "title")
    | some t => .ok ⟨problemPath, t, cfg⟩

/-! ### Helper lemmas -/

/-- Splitting a two-phase call list by its phases gives back the list. -/
theorem filter_phase_split (p q : ApiCall → Bool) (l₁ l₂ : List ApiCall)
    (h₁ : ∀ c ∈ l₁, p c = true ∧ q c = false)
    (h₂ : ∀ c ∈ l₂, p c = false ∧ q c = true) :
    (l₁ ++ l₂).filter p ++ (l₁ ++ l₂).filter q = l₁ ++ l₂ := by
  rw [List.filter_append, List.filter_append,
      List.filter_eq_self.mpr (fun c hc => (h₁ c hc).1),
      List.filter_eq_nil_iff.mpr (fun c hc => by simp [(h₂ c hc).1]),
      List.filter_eq_nil_iff.mpr (fun c hc => by simp [(h₁ c hc).2]),
      List.filter_eq_self.mpr (fun c hc => (h₂ c hc).2)]
  simp

/-- A two-block call list whose first block is all adds and second block
all removes satisfies the add-before-remove phase ordering. -/
theorem addsBeforeRemoves_map (f g : String → ApiCall)
    (hf : ∀ a, isAddCall (f a) = true ∧ isRemoveCall (f a) = false)
    (hg : ∀ a, isAddCall (g a) = false ∧ isRemoveCall (g a) = true)
    (A R : List String) :
    addsBeforeRemoves (A.map f ++ R.map g) := by
  unfold addsBeforeRemoves
  apply filter_phase_split
  · intro c hc
    obtain ⟨a, -, rfl⟩ := List.mem_map.1 hc
    exact hf a
  · intro c hc
    obtain ⟨a, -, rfl⟩ := List.mem_map.1 hc
    exact hg a

/-- The tag call list (skipping removes first, then adds) satisfies the
remove-before-add phase ordering. -/
theorem removesBeforeAdds_tags (R A : List String) :
    removesBeforeAdds (R.filterMap
        (fun tag =>
          if pyStartsWith tag "problemRestrictedTag" then none
          else some (ApiCall.removeTag tag)) ++
      A.map (fun tag => ApiCall.addTag tag false)) := by
  unfold removesBeforeAdds
  apply filter_phase_split
  · intro c hc
    obtain ⟨a, -, ha⟩ := List.mem_filterMap.1 hc
    by_cases h : pyStartsWith a "problemRestrictedTag" <;> simp [h] at ha
    simp [← ha, isAddCall, isRemoveCall]
  · intro c hc
    obtain ⟨a, -, rfl⟩ := List.mem_map.1 hc
    simp [isAddCall, isRemoveCall]

/-- A file reported by the diff is a substring of the raw diff output. -/
theorem infix_joinLines {f : List Char} {files : List (List Char)}
    (hf : f ∈ files) : f <:+: joinLines files := by
  induction files with
  | nil => cases hf
  | cons g rest ih =>
    rcases List.mem_cons.1 hf with rfl | hf'
    · exact (List.prefix_append f ('\n' :: joinLines rest)).isInfix
    · exact (ih hf').trans
        (((List.suffix_cons '\n' (joinLines rest)).trans
          (List.suffix_append g ('\n' :: joinLines rest))).isInfix)

/-! ### Claim C1 -/

/-- C1: code bug.  For desired tags {"math","easy"} and observed tags
{"easy","hard","problemRestrictedTagLanguage"} the reconciler issues a
removeTag call for the platform-restricted tag: the observed names are
lowercased before the comparison, so the case-sensitive check
tag.startswith('problemRestrictedTag') can never match and the skip
branch is dead code. -/
theorem c1_restricted_tag_is_removed :
    reconcileTags ["math", "easy"]
        [⟨"easy"⟩, ⟨"hard"⟩, ⟨"problemRestrictedTagLanguage"⟩] =
      [ApiCall.removeTag "hard",
        ApiCall.removeTag "problemrestrictedtaglanguage",
        ApiCall.addTag "math" false] := by
  decide

/-! ### Claim C3 -/

/-- C3 counterexample: for desired tags {"math"} and observed tags
{"hard"}, the tag reconciliation issues its remove call before its add
call, so the claimed add-before-remove ordering fails on the tag set. -/
theorem c3_counterexample :
    reconcileTags ["math"] [⟨"hard"⟩] =
      [ApiCall.removeTag "hard", ApiCall.addTag "math" false] ∧
    ¬ addsBeforeRemoves (reconcileTags ["math"] [⟨"hard"⟩]) := by
  unfold addsBeforeRemoves
  exact ⟨by decide, by decide⟩

/-- C3 (amended): the admin and admin-group reconciliations issue all
their add calls before any remove call, while the tag reconciliation
issues all its remove calls before any add call. -/
theorem c3_amended_phase_order :
    (∀ targetAdmins allAdmins username,
        addsBeforeRemoves (reconcileAdmins targetAdmins allAdmins username)) ∧
    (∀ targetAdminGroups groupAdmins,
        addsBeforeRemoves (reconcileGroups targetAdminGroups groupAdmins)) ∧
    (∀ desiredTagNames observedTags,
        removesBeforeAdds (reconcileTags desiredTagNames observedTags)) := by
  refine ⟨fun t a u => ?_, fun t g => ?_, fun d o => ?_⟩
  · simp only [reconcileAdmins]
    exact addsBeforeRemoves_map ApiCall.addAdmin ApiCall.removeAdmin
      (fun a => ⟨rfl, rfl⟩) (fun a => ⟨rfl, rfl⟩) _ _
  · simp only [reconcileGroups]
    exact addsBeforeRemoves_map ApiCall.addGroupAdmin ApiCall.removeGroupAdmin
      (fun a => ⟨rfl, rfl⟩) (fun a => ⟨rfl, rfl⟩) _ _
  · simp only [reconcileTags]
    exact removesBeforeAdds_tags _ _

/-! ### Claim C4 -/

/-- C4: code bug.  With desired tags empty and one observed
platform-restricted tag, the reconciler issues one remove call, i.e.
exactly |O−D| calls with nothing suppressed: restricted tags are not
among the suppressed items, because the case-sensitive prefix check is
applied to lowercased names. -/
theorem c4_restricted_tag_not_suppressed :
    reconcileTags [] [⟨"problemRestrictedTagLanguage"⟩] =
      [ApiCall.removeTag "problemrestrictedtaglanguage"] := by
  decide

/-! ### Claim C5 -/

/-- C5: for every desired/observed admin pair, the reconciler never
issues a removeAdmin call for the acting identity: its lowercased
username is subtracted from adminsToRemove. -/
theorem c5_self_removal_suppressed (targetAdmins : List String)
    (allAdmins : List AdminEntry) (u : String) (hu : u ≠ "") :
    ApiCall.removeAdmin (pyLower u) ∉
      reconcileAdmins targetAdmins allAdmins (some u) := by
  intro hmem
  simp only [reconcileAdmins] at hmem
  rcases List.mem_append.1 hmem with h | h
  · obtain ⟨a, -, ha⟩ := List.mem_map.1 h
    exact ApiCall.noConfusion ha
  · obtain ⟨x, hx, hxeq⟩ := List.mem_map.1 h
    have hxu : x = pyLower u := by injection hxeq
    have hnot := (List.mem_filter.1 hx).2
    rw [decide_eq_true_eq] at hnot
    apply hnot
    rw [hxu, clientAdminSet, if_neg hu]
    exact List.mem_singleton.mpr rfl

/-- C5 witness at a concrete input: the acting identity "Ops" is an
observed admin, absent from the desired set, and still no removeAdmin
call for it is issued. -/
theorem c5_witness :
    ApiCall.removeAdmin (pyLower "Ops") ∉
      reconcileAdmins [] [⟨"Ops", "admin"⟩] (some "Ops") :=
  c5_self_removal_suppressed [] [⟨"Ops", "admin"⟩] "Ops" (by decide)

/-! ### Claim C10 -/

/-- C10: the acting identity is also suppressed from additions: even when
its username is desired and not observed, no addAdmin call for it is
issued, because adminsToAdd also subtracts clientAdmin. -/
theorem c10_self_addition_suppressed (targetAdmins : List String)
    (allAdmins : List AdminEntry) (u : String) (hu : u ≠ "") :
    ApiCall.addAdmin (pyLower u) ∉
      reconcileAdmins targetAdmins allAdmins (some u) := by
  intro hmem
  simp only [reconcileAdmins] at hmem
  rcases List.mem_append.1 hmem with h | h
  · obtain ⟨x, hx, hxeq⟩ := List.mem_map.1 h
    have hxu : x = pyLower u := by injection hxeq
    have hnot := (List.mem_filter.1 hx).2
    rw [decide_eq_true_eq] at hnot
    apply hnot
    rw [hxu, clientAdminSet, if_neg hu]
    exact List.mem_singleton.mpr rfl
  · obtain ⟨a, -, ha⟩ := List.mem_map.1 h
    exact ApiCall.noConfusion ha

/-- C10 witness at a concrete input: "Ops" is desired and not observed,
and still no addAdmin call for it is issued. -/
theorem c10_witness :
    ApiCall.addAdmin (pyLower "Ops") ∉
      reconcileAdmins ["Ops"] [] (some "Ops") :=
  c10_self_addition_suppressed ["Ops"] [] "Ops" (by decide)

/-! ### Claim C6 -/

/-- C6 counterexample: with desired admins {"a","b"} against an empty
observed set, the reconciler wants to issue addAdmin "a" then
addAdmin "b"; if the call for "a" raises, the loop body has no
try/except, so the call for "b" is never attempted. -/
theorem c6_counterexample :
    ApiCall.addAdmin "b" ∈ reconcileAdmins ["a", "b"] [] none ∧
    ApiCall.addAdmin "b" ∉
      (runCalls (fun c => decide (c = ApiCall.addAdmin "a"))
        (reconcileAdmins ["a", "b"] [] none)).1 := by
  exact ⟨by decide, by decide⟩

/-- C6 (amended): a remote call failure during reconciliation aborts the
remaining items: once the first failing call is reached, the loop stops
having attempted exactly the calls up to and including it. -/
theorem c6_amended_failure_aborts (fails : ApiCall → Bool)
    (l₁ : List ApiCall) (c : ApiCall) (l₂ : List ApiCall)
    (h₁ : ∀ d ∈ l₁, fails d = false) (h₂ : fails c = true) :
    runCalls fails (l₁ ++ c :: l₂) = (l₁ ++ [c], false) := by
  induction l₁ with
  | nil => simp [runCalls, h₂]
  | cons d t ih =>
    have hd : fails d = false := h₁ d (List.mem_cons_self d t)
    simp [runCalls, hd, ih (fun x hx => h₁ x (List.mem_cons_of_mem d hx))]

/-- C6 witness at a concrete input. -/
theorem c6_witness :
    runCalls (fun c => decide (c = ApiCall.removeTag "x"))
      ([ApiCall.addTag "t" false] ++ ApiCall.removeTag "x" :: []) =
      ([ApiCall.addTag "t" false] ++ [ApiCall.removeTag "x"], false) :=
  c6_amended_failure_aborts _ _ _ _ (by decide) (by decide)

/-! ### Claim C2 -/

/-- C2 counterexample: the manifest path "b/c" occurs as a non-prefix
substring of the diff output for the single reported file "a/b/c"
(joined output "a/b/c\n"), and the selection keeps the entry, while the
spec-side prefix selection rejects it. -/
theorem c2_counterexample :
    problems false [⟨"b/c".toList, false⟩] ("a/b/c\n".toList) =
      [⟨"b/c".toList, false⟩] ∧
    specChangeSet [⟨"b/c".toList, false⟩] ["a/b/c".toList] = [] ∧
    "a/b/c\n".toList = joinLines ["a/b/c".toList] := by
  exact ⟨by decide, by decide, by decide⟩

/-- C2 (amended): in changed mode an entry is selected iff it is
non-disabled and its path occurs as a substring of the raw diff output;
consequently every non-disabled entry whose path is a prefix of some
reported file is selected, and when the diff reports nothing the
selection of entries with nonempty paths is empty. -/
theorem c2_amended_substring_selection :
    (∀ (entries : List ConfigEntry) (changes : List Char) (e : ConfigEntry),
        e ∈ problems false entries changes ↔
          e ∈ entries ∧ e.disabled = false ∧ e.path <:+: changes) ∧
    (∀ (entries : List ConfigEntry) (files : List (List Char))
        (e : ConfigEntry) (f : List Char),
        e ∈ entries → e.disabled = false → f ∈ files → e.path <+: f →
          e ∈ problems false entries (joinLines files)) ∧
    (∀ entries : List ConfigEntry, (∀ e ∈ entries, e.path ≠ []) →
        problems false entries [] = []) := by
  have hmem : ∀ (entries : List ConfigEntry) (changes : List Char)
      (e : ConfigEntry),
      e ∈ problems false entries changes ↔
        e ∈ entries ∧ e.disabled = false ∧ e.path <:+: changes := by
    intro entries changes e
    simp only [problems, if_neg Bool.false_ne_true, List.mem_filter,
      Bool.not_eq_true', decide_eq_true_eq, and_assoc]
  refine ⟨hmem, fun entries files e f he hd hf hpre => ?_, fun entries hne => ?_⟩
  · exact (hmem entries (joinLines files) e).mpr
      ⟨he, hd, hpre.isInfix.trans (infix_joinLines hf)⟩
  · refine List.eq_nil_iff_forall_not_mem.mpr fun e hmem' => ?_
    obtain ⟨he, -, hinf⟩ := (hmem entries [] e).1 hmem'
    exact hne e he (List.infix_nil.mp hinf)

/-- C2 witness at concrete inputs: a prefix-matched entry is selected,
and an empty diff selects nothing. -/
theorem c2_witness :
    (⟨"p/q".toList, false⟩ : ConfigEntry) ∈
      problems false [⟨"p/q".toList, false⟩]
        (joinLines ["p/q/cases/1.in".toList]) ∧
    problems false [⟨"r".toList, false⟩] [] = [] := by
  constructor
  · exact c2_amended_substring_selection.2.1 _ _ _ ("p/q/cases/1.in".toList)
      (by decide) (by decide) (by decide) (by decide)
  · exact c2_amended_substring_selection.2.2 _ (by decide)

/-! ### Claim C7 -/

/-- C7: when an add item's remote calls raise or its download/unzip
fails, problems.json is not mutated for that item, and the rest of the
batch is processed from the unchanged state. -/
theorem c7_failed_download_no_manifest_mutation (env : AddItem → AddOutcome)
    (item : AddItem) (pd : List ProblemEntry)
    (h : env item = AddOutcome.raises ∨ env item = AddOutcome.runs false) :
    processAddItem env pd item = pd ∧
    ∀ l₁ l₂ : List AddItem,
      process_add env (l₁ ++ item :: l₂) pd =
        process_add env l₂ (process_add env l₁ pd) := by
  have hitem : ∀ q : List ProblemEntry, processAddItem env q item = q := by
    intro q
    rcases h with h | h <;> simp [processAddItem, h]
  refine ⟨hitem pd, fun l₁ l₂ => ?_⟩
  unfold process_add
  rw [List.foldl_append, List.foldl_cons, hitem]

/-- C7 witness at a concrete input: a failed download leaves the
manifest unchanged. -/
theorem c7_witness :
    processAddItem (fun _ => AddOutcome.runs false) []
      ⟨"curso-publico", "intro", "sum"⟩ = [] :=
  (c7_failed_download_no_manifest_mutation _ _ _ (Or.inr rfl)).1

/-! ### Claim C9 -/

/-- C9: on a manifest that satisfies the documented invariant (at most
one entry per path), adding a problem path yields exactly one entry with
that path, and adding it a second time changes nothing. -/
theorem c9_add_idempotent (course assignment problem : String)
    (M : List ProblemEntry)
    (h : M.countP
      (fun p => p.path == jsonProblemPath course assignment problem) ≤ 1) :
    (add_problem_to_json course assignment problem M).countP
        (fun p => p.path == jsonProblemPath course assignment problem) = 1 ∧
    add_problem_to_json course assignment problem
        (add_problem_to_json course assignment problem M) =
      add_problem_to_json course assignment problem M := by
  by_cases hAny :
      M.any (fun p => p.path == jsonProblemPath course assignment problem) = true
  · have hpos : 0 < M.countP
        (fun p => p.path == jsonProblemPath course assignment problem) :=
      List.countP_pos_iff.mpr (List.any_eq_true.mp hAny)
    constructor
    · simp only [add_problem_to_json, hAny, if_true]
      omega
    · simp only [add_problem_to_json, hAny, if_true]
  · have hAny' :
        M.any (fun p => p.path == jsonProblemPath course assignment problem)
          = false := by
      revert hAny
      cases M.any (fun p => p.path == jsonProblemPath course assignment problem)
        <;> simp
    have hzero : M.countP
        (fun p => p.path == jsonProblemPath course assignment problem) = 0 :=
      List.countP_eq_zero.mpr (by
        intro a ha
        have := List.any_eq_false.mp hAny' a ha
        simpa using this)
    have hadd : add_problem_to_json course assignment problem M =
        M ++ [⟨jsonProblemPath course assignment problem⟩] := by
      simp only [add_problem_to_json, hAny']
      simp
    have hlast : (M ++ [(⟨jsonProblemPath course assignment problem⟩ :
        ProblemEntry)]).any
        (fun p => p.path == jsonProblemPath course assignment problem)
          = true := by
      simp
    constructor
    · rw [hadd, List.countP_append, hzero]
      simp [List.countP_cons]
    · rw [hadd]
      show (if _ = true then _ else _) = _
      rw [if_pos hlast]

/-- C9 witness at a concrete input: adding a path to the empty manifest
yields exactly one entry with that path. -/
theorem c9_witness :
    (add_problem_to_json "curso-publico" "hw1" "sum" []).countP
      (fun p => p.path == jsonProblemPath "curso-publico" "hw1" "sum") = 1 :=
  (c9_add_idempotent "curso-publico" "hw1" "sum" [] (by decide)).1

/-! ### Claim C8 -/

/-- C8 counterexample: a settings file that parses fine but lacks the
title field makes Problem.load fail with a KeyError (uncaught field
lookup), which is a different error class than the invalid-format
ValueError the claim promises. -/
theorem c8_counterexample :
    Problem.load "Courses/c/a/p"
        (SettingsFile.parsed [("alias", JsonValue.str "p")]) =
      Except.error (LoadError.keyError "title") ∧
    LoadError.keyError "title" ≠ LoadError.invalidFormat :=
  ⟨rfl, by decide⟩

/-- C8 (amended): Problem.load raises FileNotFoundError when the
settings file is absent and ValueError (invalid format) when it cannot
be parsed; a parsed file without the title field raises KeyError; on
success the Problem's title and config come from the settings file (the
alias field is not checked by load). -/
theorem c8_amended_load_contract (p : String)
    (cfg : List (String × JsonValue)) (t : JsonValue) :
    Problem.load p SettingsFile.absent = Except.error LoadError.notFound ∧
    Problem.load p SettingsFile.unparsable =
      Except.error LoadError.invalidFormat ∧
    (cfg.lookup "title" = none →
      Problem.load p (SettingsFile.parsed cfg) =
        Except.error (LoadError.keyError "title")) ∧
    (cfg.lookup "title" = some t →
      Problem.load p (SettingsFile.parsed cfg) = Except.ok ⟨p, t, cfg⟩) := by
  refine ⟨rfl, rfl, fun h => ?_, fun h => ?_⟩ <;> simp [Problem.load, h]

/-- C8 witness at a concrete input: a settings file with a title loads
successfully with that title and config. -/
theorem c8_witness :
    Problem.load "x" (SettingsFile.parsed [("title", JsonValue.str "T")]) =
      Except.ok ⟨"x", JsonValue.str "T", [("title", JsonValue.str "T")]⟩ :=
  (c8_amended_load_contract "x" [("title", JsonValue.str "T")]
    (JsonValue.str "T")).2.2.2 rfl
